import Mathlib

/-!
Verification development for the hpp-core path kernel.

The C++ sources embedded here are:
* `include/hpp/core/path.hh` — the `Path` abstraction: evaluation,
  constraint application, derivative and velocity-bound propagation
  through an optional time parameterization;
* `src/times-frame-function.hh` — `TimesFrameFunction`, right
  multiplication by a constant SE(3) element;
* the `ProblemSolver` header — the named numerical-constraint registry.

Numbers are modelled by `ℚ` (the C++ `value_type` is a machine double;
we reason in exact arithmetic).  Configuration and derivative vectors
are modelled as functions `ℕ → ℚ`; a C++ method that fills a
caller-allocated vector and returns a success flag is modelled as a
function returning the pair of the produced vector and the flag.
-/

namespace HppCore

/-- Configuration / derivative vectors (`Configuration_t`, `vector_t`). -/
abbrev Vec : Type := ℕ → ℚ

/-- The all-zero vector, used as the default of `Option.getD`. -/
def vzero : Vec := fun _ => 0

/-- `TimeParameterization`: a scalar map `value`, its derivative, and a
certified bound of `|derivative|` on a sub-interval
(from `include/hpp/core/time-parameterization.hh`, as used by `path.hh`). -/
structure TimeParameterization where
  value : ℚ → ℚ
  derivative : ℚ → ℚ
  derivativeBound : ℚ → ℚ → ℚ

/-- `ConstraintSet` as `Path` uses it: `apply` takes a configuration,
overwrites it with the projected configuration and reports convergence.
Modelled as configuration in, (configuration, flag) out. -/
structure ConstraintSet where
  apply : Vec → Vec × Bool

/-- The virtual implementations a concrete `Path` subclass provides:
`impl_compute` (raw evaluation at a parameter, with success flag),
`impl_derivative` (derivative of given order at a parameter) and
`impl_velocityBound` (bound of the derivative over a parameter interval). -/
structure Shape where
  impl_compute : ℚ → Vec × Bool
  impl_derivative : ℚ → ℕ → Vec
  impl_velocityBound : ℚ → ℚ → Vec

/-- The `Path` state: the concrete shape's virtual methods plus the data
members of class `Path` in `include/hpp/core/path.hh`
(`timeRange_`, `paramRange_`, `outputSize_`, `outputDerivativeSize_`,
`constraints_`, `timeParam_`). -/
structure Path where
  shape : Shape
  timeRange_ : ℚ × ℚ
  paramRange_ : ℚ × ℚ
  outputSize_ : ℕ
  outputDerivativeSize_ : ℕ
  constraints_ : Option ConstraintSet
  timeParam_ : Option TimeParameterization

namespace Path

/-- `Path::paramAtTime`: `timeParam_->value(time)` when a time
parameterization is attached, else the time itself. -/
def paramAtTime (p : Path) (time : ℚ) : ℚ :=
  match p.timeParam_ with
  | some tp => tp.value time
  | none => time

/-- `Path::configAtParam`: raw evaluation at a parameter; on raw failure
the (meaningless) vector is returned with a false flag; otherwise the
constraint set, when attached, projects the configuration and its
convergence flag is returned. -/
def configAtParam (p : Path) (param : ℚ) : Vec × Bool :=
  let r := p.shape.impl_compute param
  if r.2 = false then r
  else
    match p.constraints_ with
    | some c => c.apply r.1
    | none => r

/-- `Path::operator()(time, success)`: `configAtParam (paramAtTime time)`. -/
def evalWithSuccess (p : Path) (time : ℚ) : Vec × Bool :=
  p.configAtParam (p.paramAtTime time)

/-- The deprecated `Path::operator()(time)`: computes the raw value,
unconditionally applies the constraints when attached, and returns the
configuration, discarding both success flags. -/
def evalDeprecated (p : Path) (time : ℚ) : Vec :=
  let result := (p.shape.impl_compute (p.paramAtTime time)).1
  match p.constraints_ with
  | some c => (c.apply result).1
  | none => result

/-- `Path::derivative`: with a time parameterization attached the source
asserts `order == 1` (modelled as `none` on violation) and returns the
shape derivative at `timeParam_->value(time)` scaled by
`timeParam_->derivative(time)`; without one, `time` and `order` are
passed through to `impl_derivative` unchanged. -/
def derivative (p : Path) (time : ℚ) (order : ℕ) : Option Vec :=
  match p.timeParam_ with
  | some tp =>
      if order = 1 then
        some (fun i => p.shape.impl_derivative (tp.value time) order i
                        * tp.derivative time)
      else none
  | none => some (p.shape.impl_derivative time order)

/-- The vector computed by `Path::velocityBound` (after its assertions):
the shape bound over the parameter interval obtained by clamping
`[t0,t1]` to `timeRange_` and mapping the endpoints through
`paramAtTime`, scaled by `timeParam_->derivativeBound(t0,t1)` when a
time parameterization is attached. -/
def velocityBoundVal (p : Path) (t0 t1 : ℚ) : Vec :=
  let b := p.shape.impl_velocityBound
      (p.paramAtTime (max t0 p.timeRange_.1))
      (p.paramAtTime (min t1 p.timeRange_.2))
  match p.timeParam_ with
  | some tp => fun i => b i * tp.derivativeBound t0 t1
  | none => b

/-- `Path::velocityBound` with its `assert` preconditions made explicit:
the caller must pass a result vector of size `outputDerivativeSize_`
and an ordered interval `t0 ≤ t1`; otherwise the assertion fires
(modelled as `none`). -/
def velocityBoundChecked (p : Path) (resultSize : ℕ) (t0 t1 : ℚ) :
    Option Vec :=
  if resultSize = p.outputDerivativeSize_ ∧ t0 ≤ t1 then
    some (p.velocityBoundVal t0 t1)
  else none

/-- The parameter interval handed to `impl_velocityBound` by
`Path::velocityBound`: each endpoint of `[t0,t1]` clamped to the time
range and mapped through `paramAtTime`. -/
def clampedParamInterval (p : Path) (t0 t1 : ℚ) : ℚ × ℚ :=
  (p.paramAtTime (max t0 p.timeRange_.1),
   p.paramAtTime (min t1 p.timeRange_.2))

/-- The protected setter `Path::timeRange(tr)`: stores the time range and
recomputes `paramRange_` from the attached time parameterization, or
copies the time range when none is attached. -/
def setTimeRange (p : Path) (tr : ℚ × ℚ) : Path :=
  { p with
    timeRange_ := tr,
    paramRange_ :=
      match p.timeParam_ with
      | some tp => (tp.value tr.1, tp.value tr.2)
      | none => tr }

/-- `Path::timeParameterization(tp, tr)`: stores the parameterization and
then calls the `timeRange` setter, which recomputes `paramRange_`. -/
def setTimeParameterization (p : Path) (tp : TimeParameterization)
    (tr : ℚ × ℚ) : Path :=
  Path.setTimeRange { p with timeParam_ := some tp } tr

/-- The `paramRange` invariant of the spec: the stored `paramRange_` is
the image of `timeRange_` under the attached parameterization, or
`timeRange_` itself when none is attached. -/
def paramRangeInv (p : Path) : Prop :=
  p.paramRange_ =
    match p.timeParam_ with
    | some tp => (tp.value p.timeRange_.1, tp.value p.timeRange_.2)
    | none => p.timeRange_

/-- Modelled from the spec: `Path::copy(constraints)` is pure virtual and
its concrete implementations are outside the supplied sources; per the
spec, the receiver must not already own constraints (a fault otherwise,
modelled as `none`), and on success the copy keeps the same geometry and
carries the given constraint set. -/
def copyWith (p : Path) (c : ConstraintSet) : Option Path :=
  match p.constraints_ with
  | some _ => none
  | none => some { p with constraints_ := some c }

end Path

/-- A path reduced to its observable extent for extraction/reversal: an
interval of definition and the time-to-configuration map. -/
structure GPath where
  timeRange : ℚ × ℚ
  eval : ℚ → Vec

/-- Modelled from the spec: `Path::reverse` is implemented outside the
supplied sources; per the spec it keeps the domain and runs time
backward, so the reversed path evaluates at the mirrored time. -/
def GPath.reverseSpec (g : GPath) : GPath :=
  { timeRange := g.timeRange,
    eval := fun t => g.eval (g.timeRange.1 + g.timeRange.2 - t) }

/-- The sub-path of `g` over `[a, b]`: same evaluation map, restricted
interval of definition. -/
def GPath.subPathSpec (g : GPath) (a b : ℚ) : GPath :=
  { timeRange := (a, b), eval := g.eval }

/-- Modelled from the spec: `Path::extract` is implemented outside the
supplied sources; per the spec and the header documentation it yields
the sub-path over the interval, reversed when the interval's upper
bound is below its lower bound. -/
def GPath.extractSpec (g : GPath) (i : ℚ × ℚ) : GPath :=
  if i.2 < i.1 then GPath.reverseSpec (g.subPathSpec i.2 i.1)
  else g.subPathSpec i.1 i.2

/-- Comparison types of the numerical-constraint registry:
`equality` models `Equality::create()`, `defaultType` models
`ComparisonType::createDefault()`, `ofTypes l` models
`ComparisonTypes::create(types)`. -/
inductive ComparisonType where
  | equality : ComparisonType
  | defaultType : ComparisonType
  | ofTypes : List ℕ → ComparisonType
deriving DecidableEq

/-- The `ProblemSolver` registry state: the named numerical-constraint
map (`none` models both an absent entry and the null pointer that
`std::map::operator[]` default-constructs) and the comparison-type
map.  Differentiable functions are opaque, modelled by `ℕ`. -/
structure ProblemSolver where
  NumericalConstraintMap_ : String → Option ℕ
  comparisonTypeMap_ : String → Option ComparisonType

namespace ProblemSolver

/-- `ProblemSolver::addNumericalConstraint`: stores the function under
the name and gives it the default comparison type. -/
def addNumericalConstraint (ps : ProblemSolver) (name : String) (f : ℕ) :
    ProblemSolver :=
  { NumericalConstraintMap_ :=
      fun s => if s = name then some f else ps.NumericalConstraintMap_ s,
    comparisonTypeMap_ :=
      fun s => if s = name then some ComparisonType.defaultType
               else ps.comparisonTypeMap_ s }

/-- `ProblemSolver::comparisonType(name, types)`: looks the name up in
the numerical-constraint map and throws `logic_error` when the entry is
absent (or null); otherwise stores the created comparison types. -/
def setComparisonTypes (ps : ProblemSolver) (name : String)
    (types : List ℕ) : Except String ProblemSolver :=
  match ps.NumericalConstraintMap_ name with
  | none => Except.error
      ("Numerical constraint " ++ name ++ " not defined.")
  | some _ => Except.ok
      { ps with comparisonTypeMap_ :=
          fun s => if s = name then some (ComparisonType.ofTypes types)
                   else ps.comparisonTypeMap_ s }

/-- `ProblemSolver::comparisonType(name, eq)`: stores the comparison
type under the name with no registration check at all. -/
def setComparisonTypeOne (ps : ProblemSolver) (name : String)
    (eq : ComparisonType) : ProblemSolver :=
  { ps with comparisonTypeMap_ :=
      fun s => if s = name then some eq else ps.comparisonTypeMap_ s }

/-- `ProblemSolver::comparisonType(name) const`: returns the stored
comparison type, or `Equality::create()` when the name is not in the
comparison-type map — a silently substituted default. -/
def getComparisonType (ps : ProblemSolver) (name : String) :
    ComparisonType :=
  (ps.comparisonTypeMap_ name).getD ComparisonType.equality

/-- `ProblemSolver::numericalConstraint(name)`: returns
`NumericalConstraintMap_[name]`; for an unregistered name,
`operator[]` default-constructs and returns a null pointer (`none`),
with no error. -/
def numericalConstraint (ps : ProblemSolver) (name : String) : Option ℕ :=
  ps.NumericalConstraintMap_ name

end ProblemSolver

/-- A `ProblemSolver` with empty registries. -/
def psEmpty : ProblemSolver :=
  { NumericalConstraintMap_ := fun _ => none,
    comparisonTypeMap_ := fun _ => none }

/-- `s` with the success flag of `impl_compute` replaced by `f`, the
value component unchanged; used to show an operation ignores the flag. -/
def Shape.withComputeFlag (s : Shape) (f : ℚ → Bool) : Shape :=
  { s with impl_compute := fun q => ((s.impl_compute q).1, f q) }

/-- `c` with the convergence flag of `apply` replaced by `f`, the
projected configuration unchanged. -/
def ConstraintSet.withApplyFlag (c : ConstraintSet) (f : Vec → Bool) :
    ConstraintSet :=
  ⟨fun v => ((c.apply v).1, f v)⟩

/-! ### Concrete fixtures used by counterexamples and witnesses -/

/-- A shape whose raw evaluation always succeeds and whose derivative
and velocity-bound are identically zero. -/
def shapeOk : Shape :=
  ⟨fun _ => (vzero, true), fun _ _ => vzero, fun _ _ => vzero⟩

/-- A shape whose raw evaluation always fails. -/
def shapeRawFail : Shape :=
  ⟨fun _ => (vzero, false), fun _ _ => vzero, fun _ _ => vzero⟩

/-- The identity time parameterization, derivative 1, bound 1. -/
def tpId : TimeParameterization :=
  ⟨fun t => t, fun _ => 1, fun _ _ => 1⟩

/-- A constraint projector that accepts every configuration unchanged. -/
def csOk : ConstraintSet := ⟨fun v => (v, true)⟩

/-- A path with no constraints and no time parameterization whose raw
evaluation fails everywhere. -/
def pRawFail : Path := ⟨shapeRawFail, (0, 1), (0, 1), 3, 3, none, none⟩

/-- A plain path: no constraints, no time parameterization. -/
def pPlain : Path := ⟨shapeOk, (0, 1), (0, 1), 3, 3, none, none⟩

/-- A path with the identity time parameterization attached. -/
def pWithTp : Path := ⟨shapeOk, (0, 1), (0, 1), 3, 3, none, some tpId⟩

/-- A path that owns the trivial constraint set. -/
def pWithCs : Path := ⟨shapeOk, (0, 1), (0, 1), 3, 3, some csOk, none⟩

/-- A generic path over `[0, 1]` evaluating to zero. -/
def gEx : GPath := ⟨(0, 1), fun _ => vzero⟩

/-! ### SE(3) algebra for `TimesFrameFunction` (`src/times-frame-function.hh`)

A rigid transform is represented by a translation 3-vector and a
rotation quaternion (the C++ `Transform3f` stores the rotation as a
matrix and the constructor converts it to the quaternion `oQi_`; here
the quaternion is the primary datum and `rotation()` is the standard
quaternion-to-matrix conversion). -/

/-- 3-vectors. -/
structure Vec3 where
  x : ℚ
  y : ℚ
  z : ℚ
deriving DecidableEq

/-- Componentwise sum of 3-vectors. -/
def v3add (a b : Vec3) : Vec3 := ⟨a.x + b.x, a.y + b.y, a.z + b.z⟩

/-- Cross product of 3-vectors. -/
def cross (a b : Vec3) : Vec3 :=
  ⟨a.y * b.z - a.z * b.y, a.z * b.x - a.x * b.z, a.x * b.y - a.y * b.x⟩

/-- Scalar multiple of a 3-vector. -/
def v3smul (c : ℚ) (a : Vec3) : Vec3 := ⟨c * a.x, c * a.y, c * a.z⟩

/-- Quaternions `w + x i + y j + z k`. -/
structure Quat where
  w : ℚ
  x : ℚ
  y : ℚ
  z : ℚ
deriving DecidableEq

/-- Hamilton product of quaternions (Eigen's `operator*`). -/
def qmul (p q : Quat) : Quat :=
  ⟨p.w * q.w - p.x * q.x - p.y * q.y - p.z * q.z,
   p.w * q.x + p.x * q.w + p.y * q.z - p.z * q.y,
   p.w * q.y - p.x * q.z + p.y * q.w + p.z * q.x,
   p.w * q.z + p.x * q.y - p.y * q.x + p.z * q.w⟩

/-- Squared norm of a quaternion. -/
def qnormSq (q : Quat) : ℚ := q.w ^ 2 + q.x ^ 2 + q.y ^ 2 + q.z ^ 2

/-- The vector (imaginary) part of a quaternion, `Quaternion::vec()`. -/
def qvec (q : Quat) : Vec3 := ⟨q.x, q.y, q.z⟩

/-- Eigen's `Quaternion::_transformVector`:
`uv := 2 * vec × v; v + w * uv + vec × uv`. -/
def qtransformVector (q : Quat) (v : Vec3) : Vec3 :=
  let uv := v3smul 2 (cross (qvec q) v)
  v3add (v3add v (v3smul q.w uv)) (cross (qvec q) uv)

/-- 3×3 matrices, rows of 3-vectors. -/
structure Mat3 where
  r1 : Vec3
  r2 : Vec3
  r3 : Vec3
deriving DecidableEq

/-- Matrix–vector product. -/
def m3mulVec (m : Mat3) (v : Vec3) : Vec3 :=
  ⟨m.r1.x * v.x + m.r1.y * v.y + m.r1.z * v.z,
   m.r2.x * v.x + m.r2.y * v.y + m.r2.z * v.z,
   m.r3.x * v.x + m.r3.y * v.y + m.r3.z * v.z⟩

/-- Matrix transpose. -/
def m3transpose (m : Mat3) : Mat3 :=
  ⟨⟨m.r1.x, m.r2.x, m.r3.x⟩, ⟨m.r1.y, m.r2.y, m.r3.y⟩,
   ⟨m.r1.z, m.r2.z, m.r3.z⟩⟩

/-- Matrix product. -/
def m3mul (a b : Mat3) : Mat3 :=
  ⟨⟨a.r1.x * b.r1.x + a.r1.y * b.r2.x + a.r1.z * b.r3.x,
    a.r1.x * b.r1.y + a.r1.y * b.r2.y + a.r1.z * b.r3.y,
    a.r1.x * b.r1.z + a.r1.y * b.r2.z + a.r1.z * b.r3.z⟩,
   ⟨a.r2.x * b.r1.x + a.r2.y * b.r2.x + a.r2.z * b.r3.x,
    a.r2.x * b.r1.y + a.r2.y * b.r2.y + a.r2.z * b.r3.y,
    a.r2.x * b.r1.z + a.r2.y * b.r2.z + a.r2.z * b.r3.z⟩,
   ⟨a.r3.x * b.r1.x + a.r3.y * b.r2.x + a.r3.z * b.r3.x,
    a.r3.x * b.r1.y + a.r3.y * b.r2.y + a.r3.z * b.r3.y,
    a.r3.x * b.r1.z + a.r3.y * b.r2.z + a.r3.z * b.r3.z⟩⟩

/-- Componentwise negation of a matrix. -/
def m3neg (m : Mat3) : Mat3 :=
  ⟨v3smul (-1) m.r1, v3smul (-1) m.r2, v3smul (-1) m.r3⟩

/-- The zero matrix. -/
def m3zero : Mat3 := ⟨⟨0, 0, 0⟩, ⟨0, 0, 0⟩, ⟨0, 0, 0⟩⟩

/-- The rotation matrix of a quaternion (Eigen's `toRotationMatrix`,
what `Transform3f::rotation()` holds for a unit quaternion). -/
def rotM (q : Quat) : Mat3 :=
  ⟨⟨1 - 2 * (q.y ^ 2 + q.z ^ 2), 2 * (q.x * q.y - q.w * q.z),
    2 * (q.x * q.z + q.w * q.y)⟩,
   ⟨2 * (q.x * q.y + q.w * q.z), 1 - 2 * (q.x ^ 2 + q.z ^ 2),
    2 * (q.y * q.z - q.w * q.x)⟩,
   ⟨2 * (q.x * q.z - q.w * q.y), 2 * (q.y * q.z + q.w * q.x),
    1 - 2 * (q.x ^ 2 + q.y ^ 2)⟩⟩

/-- `se3::skew`: the matrix `[t]ₓ` with `skew(t) v = t × v`. -/
def skew (t : Vec3) : Mat3 :=
  ⟨⟨0, -t.z, t.y⟩, ⟨t.z, 0, -t.x⟩, ⟨-t.y, t.x, 0⟩⟩

/-- An SE(3) element: translation and rotation quaternion (the layout
of the 7-vector `x`: `head<3>` translation, `tail<4>` quaternion). -/
structure SE3Q where
  t : Vec3
  q : Quat
deriving DecidableEq

/-- Composition of rigid transforms: `(a * b).t = Rot(a.q) b.t + a.t`,
`(a * b).q = a.q * b.q` — the SE(3) product. -/
def se3comp (a b : SE3Q) : SE3Q :=
  ⟨v3add (m3mulVec (rotM a.q) b.t) a.t, qmul a.q b.q⟩

/-- The SE(3) Lie-group integration `x + v = x * exp6(v)`, for a given
exponential map `exp6` (`hpp::pinocchio` Lie-group addition on SE3). -/
def liePlus (exp6 : Vec → SE3Q) (x : SE3Q) (v : Vec) : SE3Q :=
  se3comp x (exp6 v)

/-- `TimesFrameFunction::impl_compute` for the constant transform `M`:
`y.head<3> = iQ._transformVector(M.translation) + x.head<3>`,
`y.tail<4> = iQ * oQi_` where `iQ` is the quaternion part of `x` and
`oQi_` is `M`'s rotation quaternion. -/
def timesFrameCompute (M : SE3Q) (x : SE3Q) : SE3Q :=
  ⟨v3add (qtransformVector x.q M.t) x.t, qmul x.q M.q⟩

/-- The 6×6 Jacobian as four 3×3 blocks. -/
structure Jac6 where
  topLeft : Mat3
  topRight : Mat3
  bottomLeft : Mat3
  bottomRight : Mat3
deriving DecidableEq

/-- `TimesFrameFunction::impl_jacobian` for the constant transform `M`:
the input configuration is ignored and the constant matrix
`[Rᵀ, -Rᵀ[t]ₓ; 0, Rᵀ]` is written, `R` and `t` being `M`'s rotation
and translation. -/
def timesFrameJacobian (M : SE3Q) (_input : SE3Q) : Jac6 :=
  ⟨m3transpose (rotM M.q),
   m3neg (m3mul (m3transpose (rotM M.q)) (skew M.t)),
   m3zero,
   m3transpose (rotM M.q)⟩

/-- The identity rigid transform. -/
def se3id : SE3Q := ⟨⟨0, 0, 0⟩, ⟨1, 0, 0, 0⟩⟩

/-! ### Theorems -/

/-- C2: with a time parameterization attached, `Path::derivative` is
defined only for order 1, where it returns the shape derivative at
`timeParam_->value(t)` scaled by `timeParam_->derivative(t)`; any other
order is a programming-error fault.  Without a parameterization, time
and order are passed through to the shape unchanged. -/
theorem C2_derivative_chain_rule (p : Path) (t : ℚ) :
    (∀ tp, p.timeParam_ = some tp →
      (p.derivative t 1
          = some (fun i => p.shape.impl_derivative (tp.value t) 1 i
                            * tp.derivative t)
        ∧ ∀ k, k ≠ 1 → p.derivative t k = none))
    ∧ (p.timeParam_ = none →
        ∀ k, p.derivative t k = some (p.shape.impl_derivative t k)) := by
  constructor
  · intro tp h
    exact ⟨by simp [Path.derivative, h], fun k hk => by simp [Path.derivative, h, hk]⟩
  · intro h k
    simp [Path.derivative, h]

/-- Witness for C2: on `pWithTp` order 2 faults and order 1 applies the
chain rule; on `pPlain` order 5 passes through. -/
theorem C2_derivative_chain_rule_witness :
    pWithTp.derivative 0 2 = none
    ∧ pWithTp.derivative 0 1
        = some (fun i => pWithTp.shape.impl_derivative (tpId.value 0) 1 i
                          * tpId.derivative 0)
    ∧ pPlain.derivative 0 5 = some (pPlain.shape.impl_derivative 0 5) :=
  ⟨((C2_derivative_chain_rule pWithTp 0).1 tpId rfl).2 2 (by decide),
   ((C2_derivative_chain_rule pWithTp 0).1 tpId rfl).1,
   (C2_derivative_chain_rule pPlain 0).2 rfl 5⟩

/-- C3 counterexample: `pRawFail` has no constraint projector at all,
yet evaluation with a success flag returns `false` (the raw
computation failed), so the flag is not false exactly when the
projector could not converge. -/
theorem C3_counterexample :
    (pRawFail.evalWithSuccess 0).2 = false ∧ pRawFail.constraints_ = none :=
  ⟨rfl, rfl⟩

/-- C3 amended: the success flag of `Path::operator()(t, success)` is
false exactly when the raw computation fails or when it succeeds and
the attached projector fails to converge on the raw configuration. -/
theorem C3_eval_success_flag (p : Path) (t : ℚ) :
    (p.evalWithSuccess t).2 = false ↔
      ((p.shape.impl_compute (p.paramAtTime t)).2 = false
       ∨ ((p.shape.impl_compute (p.paramAtTime t)).2 = true
          ∧ ∃ c, p.constraints_ = some c
              ∧ (c.apply (p.shape.impl_compute (p.paramAtTime t)).1).2
                  = false)) := by
  rcases hr : p.shape.impl_compute (p.paramAtTime t) with ⟨v, b⟩
  cases b
  · simp [Path.evalWithSuccess, Path.configAtParam, hr]
  · cases hc : p.constraints_ with
    | none => simp [Path.evalWithSuccess, Path.configAtParam, hr, hc]
    | some c => simp [Path.evalWithSuccess, Path.configAtParam, hr, hc]

/-- C4: the protected `timeRange` setter re-establishes the
`paramRange` invariant, and `timeParameterization(tp, tr)` resets the
time range to `tr` and recomputes `paramRange` through `tp`. -/
theorem C4_paramRange_invariant (p : Path) (tp : TimeParameterization)
    (tr : ℚ × ℚ) :
    Path.paramRangeInv (p.setTimeRange tr)
    ∧ (p.setTimeParameterization tp tr).timeRange_ = tr
    ∧ (p.setTimeParameterization tp tr).paramRange_
        = (tp.value tr.1, tp.value tr.2)
    ∧ Path.paramRangeInv (p.setTimeParameterization tp tr) := by
  refine ⟨?_, rfl, rfl, ?_⟩
  · cases h : p.timeParam_ <;>
      simp [Path.paramRangeInv, Path.setTimeRange, h]
  · simp [Path.paramRangeInv, Path.setTimeParameterization, Path.setTimeRange]

/-- C5: extraction over a reversed interval is the reversal of the
forward extraction (`Path::extract` and `Path::reverse` modelled from
the spec, their implementations being outside the supplied sources). -/
theorem C5_extract_reversed (g : GPath) (a b : ℚ) (hab : a < b)
    (_hlo : g.timeRange.1 ≤ a) (_hhi : b ≤ g.timeRange.2) :
    g.extractSpec (b, a) = (g.extractSpec (a, b)).reverseSpec := by
  simp [GPath.extractSpec, hab, not_lt.mpr (le_of_lt hab)]

/-- Witness for C5 at `gEx` with `a = 0 < 1 = b`. -/
theorem C5_extract_reversed_witness :
    gEx.extractSpec (1, 0) = (gEx.extractSpec (0, 1)).reverseSpec :=
  C5_extract_reversed gEx 0 1 (by norm_num) (by norm_num [gEx]) (by norm_num [gEx])

/-- C6: `Path::copy(constraints)` (modelled from the spec, the concrete
implementations being outside the supplied sources) faults when the
receiver already owns constraints — it never overwrites them — and
otherwise returns a copy with the same geometry carrying the given
constraint set. -/
theorem C6_copy_precondition (p : Path) (c c0 : ConstraintSet) :
    (p.constraints_ = some c0 → Path.copyWith p c = none)
    ∧ (p.constraints_ = none →
        Path.copyWith p c = some { p with constraints_ := some c }) := by
  constructor <;> intro h <;> simp [Path.copyWith, h]

/-- Witness for C6: copying `pWithCs` with new constraints faults;
copying `pPlain` attaches them. -/
theorem C6_copy_precondition_witness :
    Path.copyWith pWithCs csOk = none
    ∧ Path.copyWith pPlain csOk
        = some { pPlain with constraints_ := some csOk } :=
  ⟨(C6_copy_precondition pWithCs csOk csOk).1 rfl,
   (C6_copy_precondition pPlain csOk csOk).2 rfl⟩

/-- C7 counterexample: on an empty registry, reading the comparison
type of the unregistered name silently substitutes the default
`Equality`, and looking up the constraint returns a null pointer —
neither surfaces a configuration error. -/
theorem C7_counterexample :
    psEmpty.NumericalConstraintMap_ "foo" = none
    ∧ psEmpty.getComparisonType "foo" = ComparisonType.equality
    ∧ psEmpty.numericalConstraint "foo" = none :=
  ⟨rfl, rfl, rfl⟩

/-- C7 amended: for a name absent from both registries, only the
vector comparison-type setter surfaces an error (`logic_error`); the
comparison-type getter silently returns `Equality`, the constraint
lookup silently returns a null pointer, and the single comparison-type
setter silently stores without any check. -/
theorem C7_registry_errors (ps : ProblemSolver) (name : String)
    (types : List ℕ) (eq : ComparisonType)
    (h1 : ps.NumericalConstraintMap_ name = none)
    (h2 : ps.comparisonTypeMap_ name = none) :
    ps.setComparisonTypes name types
        = Except.error ("Numerical constraint " ++ name ++ " not defined.")
    ∧ ps.getComparisonType name = ComparisonType.equality
    ∧ ps.numericalConstraint name = none
    ∧ (ps.setComparisonTypeOne name eq).comparisonTypeMap_ name = some eq := by
  refine ⟨?_, ?_, h1, ?_⟩
  · simp [ProblemSolver.setComparisonTypes, h1]
  · simp [ProblemSolver.getComparisonType, h2]
  · simp [ProblemSolver.setComparisonTypeOne]

/-- Witness for C7's amended statement on the empty registry. -/
theorem C7_registry_errors_witness :
    psEmpty.setComparisonTypes "foo" []
        = Except.error ("Numerical constraint " ++ "foo" ++ " not defined.")
    ∧ psEmpty.getComparisonType "foo" = ComparisonType.equality
    ∧ psEmpty.numericalConstraint "foo" = none
    ∧ (psEmpty.setComparisonTypeOne "foo" ComparisonType.equality).comparisonTypeMap_ "foo"
        = some ComparisonType.equality :=
  C7_registry_errors psEmpty "foo" [] ComparisonType.equality rfl rfl

/-- C9: the deprecated `Path::operator()(t)` returns the same
configuration whatever the raw-computation and projection success
flags are, and, when a projector is attached, returns the projected
configuration unconditionally — the caller cannot detect a projection
failure. -/
theorem C9_deprecated_eval_discards_flags (p : Path) (t : ℚ)
    (f : ℚ → Bool) (g : Vec → Bool) :
    Path.evalDeprecated
      { p with shape := p.shape.withComputeFlag f,
               constraints_ :=
                 Option.map (fun c => c.withApplyFlag g) p.constraints_ } t
      = p.evalDeprecated t
    ∧ (∀ c, p.constraints_ = some c →
        p.evalDeprecated t
          = (c.apply (p.shape.impl_compute (p.paramAtTime t)).1).1) := by
  constructor
  · cases hc : p.constraints_ <;>
      simp [Path.evalDeprecated, Path.paramAtTime, Shape.withComputeFlag,
            ConstraintSet.withApplyFlag, hc]
  · intro c hc
    simp [Path.evalDeprecated, hc]

/-- Witness for C9 on a path with the trivial projector. -/
theorem C9_deprecated_eval_discards_flags_witness :
    Path.evalDeprecated
      { pWithCs with
          shape := pWithCs.shape.withComputeFlag (fun _ => false),
          constraints_ :=
            Option.map (fun c => c.withApplyFlag (fun _ => false))
              pWithCs.constraints_ } 0
      = pWithCs.evalDeprecated 0
    ∧ pWithCs.evalDeprecated 0
        = (csOk.apply ((pWithCs.shape.impl_compute (pWithCs.paramAtTime 0)).1)).1 :=
  ⟨(C9_deprecated_eval_discards_flags pWithCs
      0 (fun _ => false) (fun _ => false)).1,
   (C9_deprecated_eval_discards_flags pWithCs
      0 (fun _ => false) (fun _ => false)).2 csOk rfl⟩

/-- C10: `Path::velocityBound` faults (assertion) exactly when the
result vector is not of size `outputDerivativeSize()` or `t0 > t1`,
and the clamping of a reversed interval to the domain keeps it
reversed — the parameter interval handed to the shape is out of order,
so such a call is a precondition violation, not a handled case. -/
theorem C10_velocityBound_preconditions (p : Path) (n : ℕ) (t0 t1 : ℚ) :
    (p.velocityBoundChecked n t0 t1 = none ↔
      (n ≠ p.outputDerivativeSize_ ∨ t1 < t0))
    ∧ (p.timeParam_ = none → p.timeRange_.1 ≤ t1 → t1 < t0 →
        t0 ≤ p.timeRange_.2 →
        (p.clampedParamInterval t0 t1).2 < (p.clampedParamInterval t0 t1).1) := by
  constructor
  · by_cases hc : n = p.outputDerivativeSize_ ∧ t0 ≤ t1
    · simp [Path.velocityBoundChecked, hc, hc.1, not_lt.mpr hc.2]
    · rw [Decidable.not_and_iff_or_not, not_le] at hc
      rcases hc with hc | hc
      · simp [Path.velocityBoundChecked, hc]
      · simp [Path.velocityBoundChecked, hc, not_le.mpr hc]
  · intro htp hlo hrev hhi
    have h1 : max t0 p.timeRange_.1 = t0 :=
      max_eq_left (le_trans hlo (le_of_lt hrev))
    have h2 : min t1 p.timeRange_.2 = t1 :=
      min_eq_left (le_trans (le_of_lt hrev) hhi)
    simpa [Path.clampedParamInterval, Path.paramAtTime, htp, h1, h2] using hrev

/-- C1: soundness of `Path::velocityBound`.  Provided the concrete
shape's bound is sound over the clamped-and-mapped parameter interval,
the parameterization is monotone and `derivativeBound` bounds
`|derivative|` over `[t0,t1]`, the vector returned for `t0 ≤ t1` never
underestimates the derivative magnitude of the path at any time of
`[t0,t1]` within the domain. -/
theorem C1_velocityBound_sound (p : Path) (t0 t1 t : ℚ) (i : ℕ)
    (_h01 : t0 ≤ t1)
    (htl : max t0 p.timeRange_.1 ≤ t) (htu : t ≤ min t1 p.timeRange_.2)
    (hmono : ∀ tp, p.timeParam_ = some tp →
      ∀ a b, a ≤ b → tp.value a ≤ tp.value b)
    (hdb : ∀ tp, p.timeParam_ = some tp → ∀ s, t0 ≤ s → s ≤ t1 →
      |tp.derivative s| ≤ tp.derivativeBound t0 t1)
    (hshape : ∀ q j, (p.clampedParamInterval t0 t1).1 ≤ q →
      q ≤ (p.clampedParamInterval t0 t1).2 →
      |p.shape.impl_derivative q 1 j| ≤
        p.shape.impl_velocityBound (p.clampedParamInterval t0 t1).1
          (p.clampedParamInterval t0 t1).2 j) :
    |((p.derivative t 1).getD vzero) i| ≤ p.velocityBoundVal t0 t1 i := by
  cases htp : p.timeParam_ with
  | none =>
      have hcl1 : (p.clampedParamInterval t0 t1).1 = max t0 p.timeRange_.1 := by
        simp [Path.clampedParamInterval, Path.paramAtTime, htp]
      have hcl2 : (p.clampedParamInterval t0 t1).2 = min t1 p.timeRange_.2 := by
        simp [Path.clampedParamInterval, Path.paramAtTime, htp]
      have h := hshape t i (by rw [hcl1]; exact htl) (by rw [hcl2]; exact htu)
      rw [hcl1, hcl2] at h
      simpa [Path.derivative, Path.velocityBoundVal, Path.paramAtTime, htp]
        using h
  | some tp =>
      have hcl1 : (p.clampedParamInterval t0 t1).1
          = tp.value (max t0 p.timeRange_.1) := by
        simp [Path.clampedParamInterval, Path.paramAtTime, htp]
      have hcl2 : (p.clampedParamInterval t0 t1).2
          = tp.value (min t1 p.timeRange_.2) := by
        simp [Path.clampedParamInterval, Path.paramAtTime, htp]
      have hD : |p.shape.impl_derivative (tp.value t) 1 i| ≤
          p.shape.impl_velocityBound (tp.value (max t0 p.timeRange_.1))
            (tp.value (min t1 p.timeRange_.2)) i := by
        have h := hshape (tp.value t) i
          (by rw [hcl1]; exact hmono tp htp _ _ htl)
          (by rw [hcl2]; exact hmono tp htp _ _ htu)
        rwa [hcl1, hcl2] at h
      have hd : |tp.derivative t| ≤ tp.derivativeBound t0 t1 :=
        hdb tp htp t (le_trans (le_max_left _ _) htl)
          (le_trans htu (min_le_left _ _))
      have hgoal : |p.shape.impl_derivative (tp.value t) 1 i * tp.derivative t|
          ≤ p.shape.impl_velocityBound (tp.value (max t0 p.timeRange_.1))
              (tp.value (min t1 p.timeRange_.2)) i
            * tp.derivativeBound t0 t1 := by
        rw [abs_mul]
        exact mul_le_mul hD hd (abs_nonneg _) (le_trans (abs_nonneg _) hD)
      simpa [Path.derivative, Path.velocityBoundVal, Path.paramAtTime, htp]
        using hgoal

/-- Witness for C1 on the reparameterized zero path. -/
theorem C1_velocityBound_sound_witness :
    |((pWithTp.derivative (1 / 2) 1).getD vzero) 0|
      ≤ pWithTp.velocityBoundVal 0 1 0 :=
  C1_velocityBound_sound pWithTp 0 1 (1 / 2) 0 (by norm_num)
    (by norm_num [pWithTp]) (by norm_num [pWithTp])
    (by intro tp h a b hab
        simp [pWithTp] at h
        rw [← h]
        simpa [tpId] using hab)
    (by intro tp h s h0 h1
        simp [pWithTp] at h
        rw [← h]
        simp [tpId])
    (by intro q j h1 h2
        simp [pWithTp, shapeOk, vzero])

/-- Eigen's quaternion `_transformVector` agrees with the quaternion's
rotation matrix applied to the vector: a polynomial identity in the
quaternion and vector components. -/
theorem qtransformVector_eq_rotM (q : Quat) (v : Vec3) :
    qtransformVector q v = m3mulVec (rotM q) v := by
  cases q with
  | mk w x y z =>
    cases v with
    | mk a b c =>
      simp only [qtransformVector, rotM, m3mulVec, cross, qvec, v3add,
        v3smul, Vec3.mk.injEq]
      refine ⟨?_, ?_, ?_⟩ <;> ring

/-- C8: `TimesFrameFunction::impl_compute` is right multiplication by
the constant transform: for a unit input quaternion it returns
`SE3(x) * M`, which equals the Lie-group element `x + log6(M)` (so the
source's assertion comparing the two computations holds), and
`impl_jacobian` writes the same constant matrix for every input. -/
theorem C8_times_frame_function (M x a b : SE3Q) (_hunit : qnormSq x.q = 1)
    (exp6 : Vec → SE3Q) (logM : Vec) (hlog : exp6 logM = M) :
    timesFrameCompute M x = se3comp x M
    ∧ timesFrameCompute M x = liePlus exp6 x logM
    ∧ timesFrameJacobian M a = timesFrameJacobian M b := by
  have h1 : timesFrameCompute M x = se3comp x M := by
    simp only [timesFrameCompute, se3comp, qtransformVector_eq_rotM]
  refine ⟨h1, ?_, rfl⟩
  rw [h1]
  simp [liePlus, hlog]

/-- Witness for C8 at the identity transform, with the exponential map
collapsed at the stored logarithm, and two distinct Jacobian inputs. -/
theorem C8_times_frame_function_witness :
    timesFrameCompute se3id se3id = se3comp se3id se3id
    ∧ timesFrameCompute se3id se3id = liePlus (fun _ => se3id) se3id vzero
    ∧ timesFrameJacobian se3id se3id
        = timesFrameJacobian se3id (⟨⟨1, 2, 3⟩, ⟨0, 1, 0, 0⟩⟩ : SE3Q) :=
  C8_times_frame_function se3id se3id se3id (⟨⟨1, 2, 3⟩, ⟨0, 1, 0, 0⟩⟩ : SE3Q)
    (by norm_num [se3id, qnormSq]) (fun _ => se3id) vzero rfl

/-- Witness for C10: a wrong-size call and a reversed call fault, and
the clamped interval of a reversed call stays reversed. -/
theorem C10_velocityBound_preconditions_witness :
    (pPlain.velocityBoundChecked 2 0 1 = none)
    ∧ (pPlain.velocityBoundChecked 3 1 0 = none)
    ∧ (pPlain.clampedParamInterval 1 0).2 < (pPlain.clampedParamInterval 1 0).1 :=
  ⟨(C10_velocityBound_preconditions pPlain 2 0 1).1.mpr (Or.inl (by decide)),
   (C10_velocityBound_preconditions pPlain 3 1 0).1.mpr (Or.inr (by norm_num)),
   (C10_velocityBound_preconditions pPlain 3 1 0).2 rfl (by norm_num [pPlain])
     (by norm_num) (by norm_num [pPlain])⟩

end HppCore
